import Mathlib

/-!
Verification of the Arquero query-builder core (`src/query/query.js`).

The JavaScript source models a `Query` as an ordered list of verbs plus an
optional parameter mapping (`_params`, a plain JS object or `null`) and an
optional source table name (`_table`, a string or `undefined`).

Shallow embedding conventions:
* JS plain objects used as parameter mappings become insertion-ordered
  association lists `ParamsObj α := List (String × α)`.
* JS object *references* matter for the params mapping (it may be shared
  between query instances after `append`, and the setter builds a fresh
  merged object).  We therefore keep an explicit heap of parameter objects
  (`Heap α`, addresses are indices) and let `_params` be an optional
  address; heap cells are never overwritten, matching the source, which
  only ever allocates fresh objects via object spread.
* `null`/`undefined` become `Option.none`.  A JS object is always truthy
  (even `{}`); a string is truthy iff non-empty — both encodings appear in
  `serialize` below, exactly where the source tests truthiness.
* Verbs are external collaborators: a verb is just its capability record
  (`evaluate`, `toObject`, `toAST`), and the external deserializer
  `Verb.from` is passed in as a function argument where needed.
* Exceptions thrown by the catalog or by a verb's `evaluate` become
  `Except ε`.
-/

/-- A JS parameter object: insertion-ordered association list. -/
abbrev ParamsObj (α : Type) := List (String × α)

/-- Heap of parameter objects; an address is an index into the list. -/
abbrev Heap (α : Type) := List (ParamsObj α)

/-- Dereference an optional params address (`null` dereferences to `none`). -/
def deref (h : Heap α) : Option Nat → Option (ParamsObj α)
  | none => none
  | some a => h[a]?

/-- JS property lookup on a params object: first binding of the key wins. -/
def objGet? (o : ParamsObj α) (k : String) : Option α :=
  (o.find? (fun kv => kv.1 == k)).map (·.2)

/-- JS object spread `{ ...a, ...b }`: keys of `a` in order with values
overridden by `b` where present, then keys of `b` absent from `a` in
`b`'s order. -/
def spreadMerge (a b : ParamsObj α) : ParamsObj α :=
  a.map (fun kv => (kv.1, (objGet? b kv.1).getD kv.2)) ++
    b.filter (fun kv => (objGet? a kv.1).isNone)

/-- A table catalog: receives the query's (possibly absent) table name and
returns a table or throws (`Catalog(name) -> table`). -/
abbrev Catalog (τ ε : Type) := Option String → Except ε τ

/-- An external verb, reduced to its capability interface used by
`query.js`: `evaluate(table, catalog)`, `toObject()`, `toAST()`. -/
structure Verb (τ ω ε : Type) where
  evaluate : τ → Catalog τ ε → Except ε τ
  toObject : ω
  toAST : ω

/-- The `Query` entity of `query.js`: verbs, optional params reference,
optional table name.  The `_params` field storage comes from the
`Transformable` base class (not under `src/`); per the spec it is a plain
parameter-mapping store initialized from the constructor argument. -/
structure Query (τ ω ε α : Type) where
  _verbs : List (Verb τ ω ε)
  _params : Option Nat
  _table : Option String

/-- `query(tableName)`: `new Query(null, null, tableName)`. -/
def query (tableName : Option String) : Query τ ω ε α :=
  ⟨[], none, tableName⟩

/-- `Query.length` getter: `this._verbs.length`. -/
def Query.length (q : Query τ ω ε α) : Nat :=
  q._verbs.length

/-- `Query.tableName` getter: `this._table`. -/
def Query.tableName (q : Query τ ω ε α) : Option String :=
  q._table

/-- Serialized query shape.  A JS key that is absent from the emitted
object is `none`; `qtype` models the optional leading `type` tag spliced
in by `toAST`. -/
structure QObj (ω α : Type) where
  qtype : Option String
  verbs : List ω
  params : Option (ParamsObj α)
  table : Option String
deriving DecidableEq

/-- Modelled from the spec: the query node type tag (`QueryType` imported
from the constants module, which is not under `src/`); `toAST` splices it
in as a leading field marking the node as a query node. -/
def QueryType : String := "Query"

/-- JS truthiness test `query._table ? { table: query._table } : null` on an
optional string: a string is truthy iff non-empty. -/
def truthyString : Option String → Option String
  | some t => if t = "" then none else some t
  | none => none

/-- The shared `serialize(query, method, props)` helper:
`{ ...props, verbs: map, ...(params if truthy), ...(table if truthy) }`.
A params object is always truthy (even empty), so the params field is
emitted exactly when `_params` is a mapping; the table name is emitted
through the string-truthiness test. -/
def serialize (h : Heap α) (q : Query τ ω ε α) (method : Verb τ ω ε → ω)
    (props : Option String) : QObj ω α :=
  { qtype := props
    verbs := q._verbs.map method
    params := deref h q._params
    table := truthyString q._table }

/-- `Query.prototype.toObject`: `serialize(this, 'toObject')`. -/
def Query.toObject (q : Query τ ω ε α) (h : Heap α) : QObj ω α :=
  serialize h q Verb.toObject none

/-- `Query.prototype.toJSON`: returns `this.toObject()`. -/
def Query.toJSON (q : Query τ ω ε α) (h : Heap α) : QObj ω α :=
  q.toObject h

/-- `Query.prototype.toAST`: `serialize(this, 'toAST', { type: QueryType })`. -/
def Query.toAST (q : Query τ ω ε α) (h : Heap α) : QObj ω α :=
  serialize h q Verb.toAST (some QueryType)

/-- `Query.from({ verbs, table, params })`:
`new Query(verbs.map(Verb.from), params, table)`.  The external verb
deserializer is the argument `vfrom`.  When the object carries a params
mapping the new instance stores (a reference to) it, so it is entered
into the heap. -/
def Query.fromObject (vfrom : ω → Verb τ ω ε) (h : Heap α) (o : QObj ω α) :
    Heap α × Query τ ω ε α :=
  match o.params with
  | some p => (h ++ [p], ⟨o.verbs.map vfrom, some h.length, o.table⟩)
  | none => (h, ⟨o.verbs.map vfrom, none, o.table⟩)

/-- `queryFrom(object)`: `Query.from(object)`. -/
def queryFrom (vfrom : ω → Verb τ ω ε) (h : Heap α) (o : QObj ω α) :
    Heap α × Query τ ω ε α :=
  Query.fromObject vfrom h o

/-- `Query.prototype.params` called with no argument: returns
`this._params` (dereferenced view; `null` when absent). -/
def Query.paramsGet (q : Query τ ω ε α) (h : Heap α) : Option (ParamsObj α) :=
  deref h q._params

/-- `Query.prototype.params(values)` (setter branch):
`this._params = { ...this._params, ...values }; return this`.
The spread builds a fresh object (`{ ...null, ...values }` spreads
nothing for a `null` store), so a new cell is allocated and the instance
is updated to point at it; no existing cell is modified. -/
def Query.paramsSet (q : Query τ ω ε α) (h : Heap α) (values : ParamsObj α) :
    Heap α × Query τ ω ε α :=
  let merged := spreadMerge ((deref h q._params).getD []) values
  (h ++ [merged], { q with _params := some h.length })

/-- `append(qb, verb)`:
`new Query(qb._verbs.concat(verb), qb._params, qb._table)` — the params
reference and table name are carried over unchanged. -/
def append (qb : Query τ ω ε α) (verb : Verb τ ω ε) : Query τ ω ε α :=
  ⟨qb._verbs ++ [verb], qb._params, qb._table⟩

/-- `addQueryVerb(name, verb)` installs on `Query.prototype` the builder
method `function(...args) { return append(this, verb(...args)) }`; the
load-time internal `__name` handlers are the same function with the
receiver made explicit. -/
def addQueryVerb (verb : β → Verb τ ω ε) : Query τ ω ε α → β → Query τ ω ε α :=
  fun q args => append q (verb args)

/-- First line of `Query.prototype.evaluate`:
`table = table || catalog(this._table)`.  A table object is always
truthy, so the catalog is consulted exactly when no table is supplied. -/
def resolve (q : Query τ ω ε α) (table : Option τ) (catalog : Catalog τ ε) :
    Except ε τ :=
  match table with
  | some t => Except.ok t
  | none => catalog q._table

/-- The `for (const verb of this._verbs)` loop body of `evaluate`:
`table = verb.evaluate(table.params(this._params), catalog)`, stopping at
the first thrown error.  `tp` is the external `Table.params` capability
(modelled from the spec: returns a table annotated with the given
parameter mapping); `p` is the query's dereferenced `_params`. -/
def evalVerbs (tp : τ → Option (ParamsObj α) → τ) (cat : Catalog τ ε)
    (p : Option (ParamsObj α)) : List (Verb τ ω ε) → τ → Except ε τ
  | [], t => Except.ok t
  | v :: vs, t =>
    match v.evaluate (tp t p) cat with
    | Except.ok t' => evalVerbs tp cat p vs t'
    | Except.error e => Except.error e

/-- `Query.prototype.evaluate(table, catalog)`: resolve the input table,
then fold the verbs over it. -/
def Query.evaluate (q : Query τ ω ε α) (tp : τ → Option (ParamsObj α) → τ)
    (h : Heap α) (table : Option τ) (catalog : Catalog τ ε) : Except ε τ :=
  match resolve q table catalog with
  | Except.ok t0 => evalVerbs tp catalog (deref h q._params) q._verbs t0
  | Except.error e => Except.error e

/-- A concrete table type for concrete instances: a payload plus the
parameter annotation attached by `Table.params` (modelled from the spec:
`Table.params(mapping) -> table` returns a table annotated with the given
parameter mapping). -/
structure MTable where
  val : Nat
  annot : Option (ParamsObj Nat)
deriving DecidableEq

/-- The `Table.params` capability of `MTable`. -/
def mparams (t : MTable) (p : Option (ParamsObj Nat)) : MTable :=
  { t with annot := p }

/-- Concrete chain `query().params({a:1})` (heap and query). -/
def ex5a1 : Heap Nat × Query Unit Unit Unit Nat :=
  (query none).paramsSet [] [("a", 1)]

/-- Concrete chain `query().params({a:1}).params({b:2})`. -/
def ex5a2 : Heap Nat × Query Unit Unit Unit Nat :=
  ex5a1.2.paramsSet ex5a1.1 [("b", 2)]

/-- Concrete chain `query().params({a:1}).params({a:2})`. -/
def ex5b2 : Heap Nat × Query Unit Unit Unit Nat :=
  ex5a1.2.paramsSet ex5a1.1 [("a", 2)]

/-- Concrete query `query('t').params({a:1})` over `MTable`, with no verbs. -/
def cex4 : Heap Nat × Query MTable Unit Unit Nat :=
  (query (some "t")).paramsSet [] [("a", 1)]

/-- Concrete catalog resolving every name to the table `⟨5, none⟩`. -/
def cex4cat : Catalog MTable Unit :=
  fun _ => Except.ok ⟨5, none⟩

/-- Concrete catalog resolving only the name `t` to the table `⟨7, none⟩`. -/
def w4cat : Catalog MTable Unit :=
  fun nm => if nm = some "t" then Except.ok ⟨7, none⟩ else Except.error ()

/-- Concrete catalog failing on every name. -/
def w7cat : Catalog MTable Unit :=
  fun _ => Except.error ()

/-- A concrete verb whose object form is the string `v`. -/
def w1v : Verb Unit String Unit :=
  ⟨fun t _ => Except.ok t, "v", "vast"⟩

/-- Concrete query `query('t').<verb>().params({a:1})` over the verb `w1v`. -/
def w1 : Heap Nat × Query Unit String Unit Nat :=
  (append (query (some "t")) w1v).paramsSet [] [("a", 1)]

/-- Concrete query `query().params({a:1})` with unit verbs. -/
def w9 : Heap Nat × Query Unit Unit Unit Nat :=
  (query none).paramsSet [] [("a", 1)]

/-- A concrete verb with unit object forms. -/
def w10v : Verb Unit Unit Unit :=
  ⟨fun t _ => Except.ok t, (), ()⟩

/-- Concrete query `query('t').params({a:1})` with unit verbs. -/
def w10 : Heap Nat × Query Unit Unit Unit Nat :=
  (query (some "t")).paramsSet [] [("a", 1)]

/-! ### Helper lemmas -/

/-- Appending a fresh cell to the heap preserves dereferencing of addresses
already in bounds. -/
theorem deref_append_lt (h : Heap α) (x : ParamsObj α) (a : Nat)
    (ha : a < h.length) : deref (h ++ [x]) (some a) = deref h (some a) := by
  simp only [deref]
  exact List.getElem?_append_left ha

/-- The freshly appended cell sits at the old heap length. -/
theorem deref_append_self (h : Heap α) (x : ParamsObj α) :
    deref (h ++ [x]) (some h.length) = some x := by
  simp only [deref]
  exact List.getElem?_concat_length h x

/-- `find?` commutes with a filter whose predicate is implied by the search
predicate. -/
theorem find?_filter_of_imp (l : List γ) (p g : γ → Bool)
    (hpg : ∀ x, p x = true → g x = true) :
    (l.filter g).find? p = l.find? p := by
  induction l with
  | nil => rfl
  | cons y l ih =>
    by_cases hgy : g y = true
    · rw [List.filter_cons_of_pos hgy]
      by_cases hpy : p y = true
      · rw [List.find?_cons_of_pos _ hpy, List.find?_cons_of_pos _ hpy]
      · rw [List.find?_cons_of_neg _ (by simpa using hpy),
          List.find?_cons_of_neg _ (by simpa using hpy), ih]
    · have hpy : ¬ p y = true := fun hp => hgy (hpg y hp)
      rw [List.filter_cons_of_neg (by simpa using hgy),
        List.find?_cons_of_neg _ (by simpa using hpy), ih]

/-- Property lookup distributes over object concatenation. -/
theorem objGet?_append (x y : ParamsObj α) (k : String) :
    objGet? (x ++ y) k = (objGet? x k).or (objGet? y k) := by
  unfold objGet?
  rw [List.find?_append]
  cases x.find? (fun kv => kv.1 == k) <;> rfl

/-- Property lookup on the override part of a spread: keys are those of
`a`; values are overridden by `b` where `b` has the key. -/
theorem objGet?_map_override (a b : ParamsObj α) (k : String) :
    objGet? (a.map (fun kv => (kv.1, (objGet? b kv.1).getD kv.2))) k
      = (objGet? a k).map (fun v => (objGet? b k).getD v) := by
  show ((a.map (fun kv => (kv.1, (objGet? b kv.1).getD kv.2))).find?
      (fun kv => kv.1 == k)).map (·.2) = _
  rw [List.find?_map]
  show (Option.map (fun kv : String × α => (kv.1, (objGet? b kv.1).getD kv.2))
      (a.find? (fun kv => kv.1 == k))).map (·.2)
    = (objGet? a k).map (fun v => (objGet? b k).getD v)
  cases hfa : a.find? (fun kv => kv.1 == k) with
  | none =>
    have hget : objGet? a k = none := by
      unfold objGet?
      rw [hfa]
      rfl
    rw [hget]
    rfl
  | some kv0 =>
    have hk0 : kv0.1 = k := by
      have := List.find?_some hfa
      simpa using this
    have hget : objGet? a k = some kv0.2 := by
      unfold objGet?
      rw [hfa]
      rfl
    show some ((objGet? b kv0.1).getD kv0.2)
      = (objGet? a k).map (fun v => (objGet? b k).getD v)
    rw [hget, hk0]
    rfl

/-- Property lookup on a JS object spread: the right operand wins on every
key it carries; other keys fall through to the left operand. -/
theorem objGet?_spreadMerge (a b : ParamsObj α) (k : String) :
    objGet? (spreadMerge a b) k =
      match objGet? b k with
      | some x => some x
      | none => objGet? a k := by
  unfold spreadMerge
  rw [objGet?_append, objGet?_map_override]
  cases hfa : objGet? a k with
  | some v =>
    simp only [Option.map_some']
    cases objGet? b k <;> rfl
  | none =>
    simp only [Option.map_none']
    have hcong := find?_filter_of_imp b (fun kv => kv.1 == k)
      (fun kv => (objGet? a kv.1).isNone)
      (fun kv hkv => by
        have hk : kv.1 = k := by simpa using hkv
        show (objGet? a kv.1).isNone = true
        rw [hk, hfa]
        rfl)
    have hfil : objGet? (b.filter (fun kv => (objGet? a kv.1).isNone)) k
        = objGet? b k :=
      congrArg (Option.map (fun kv : String × α => kv.2)) hcong
    rw [hfil]
    cases objGet? b k <;> rfl

/-- The verb fold splits over list concatenation (stopping at the first
error). -/
theorem evalVerbs_append (tp : τ → Option (ParamsObj α) → τ)
    (cat : Catalog τ ε) (p : Option (ParamsObj α))
    (vs ws : List (Verb τ ω ε)) (t : τ) :
    evalVerbs tp cat p (vs ++ ws) t =
      match evalVerbs tp cat p vs t with
      | Except.ok t' => evalVerbs tp cat p ws t'
      | Except.error e => Except.error e := by
  induction vs generalizing t with
  | nil => rfl
  | cons v vs ih =>
    simp only [List.cons_append, evalVerbs]
    cases v.evaluate (tp t p) cat with
    | ok t' => exact ih t'
    | error e => rfl

/-- The string-truthiness filter is idempotent. -/
theorem truthyString_idem (t : Option String) :
    truthyString (truthyString t) = truthyString t := by
  cases t with
  | none => rfl
  | some s =>
    by_cases hs : s = "" <;> simp [truthyString, hs]

/-- Spreading the empty object on the right is the identity. -/
theorem spreadMerge_nil (p : ParamsObj α) : spreadMerge p [] = p := by
  unfold spreadMerge
  have h1 : (fun kv : String × α => (kv.1, (objGet? ([] : ParamsObj α) kv.1).getD kv.2))
      = id := by
    funext kv
    rfl
  simp [h1]

/-! ### Claim theorems -/

/-- C2 — Append immutability: a registered builder method returns a new
Query whose verbs are the old verbs followed by the constructed verb,
with the params reference and table name carried over unchanged; the verb
count grows by one, and the new serialization extends the old one by the
new verb's object.  The original query and the heap are untouched by
construction: `addQueryVerb`/`append` neither take nor return a heap and
never modify their argument, so `q.length` and `q.toObject h` denote the
same values before and after the append. -/
theorem append_immutable (verb : β → Verb τ ω ε) (q : Query τ ω ε α)
    (args : β) (h : Heap α) :
    (addQueryVerb verb q args)._verbs = q._verbs ++ [verb args] ∧
    (addQueryVerb verb q args)._params = q._params ∧
    (addQueryVerb verb q args)._table = q._table ∧
    (addQueryVerb verb q args).length = q.length + 1 ∧
    ((addQueryVerb verb q args).toObject h).verbs
      = (q.toObject h).verbs ++ [(verb args).toObject] ∧
    ((addQueryVerb verb q args).toObject h).params = (q.toObject h).params ∧
    ((addQueryVerb verb q args).toObject h).table = (q.toObject h).table := by
  refine ⟨rfl, rfl, rfl, ?_, ?_, rfl, rfl⟩
  · simp [addQueryVerb, append, Query.length]
  · simp [addQueryVerb, append, Query.toObject, serialize]

/-- C8 — AST/object serialization agreement: `toAST` emits the same verbs
in the same order as `toObject` (each through its own per-verb method),
identical `params` and `table` fields, and differs only in the added
top-level type tag, which `toObject` does not carry. -/
theorem toAST_agrees_toObject (q : Query τ ω ε α) (h : Heap α) :
    (q.toAST h).verbs = q._verbs.map Verb.toAST ∧
    (q.toObject h).verbs = q._verbs.map Verb.toObject ∧
    (q.toAST h).verbs.length = (q.toObject h).verbs.length ∧
    (q.toAST h).params = (q.toObject h).params ∧
    (q.toAST h).table = (q.toObject h).table ∧
    (q.toAST h).qtype = some QueryType ∧
    (q.toObject h).qtype = none :=
  ⟨rfl, rfl, by simp [Query.toAST, Query.toObject, serialize], rfl, rfl,
    rfl, rfl⟩

/-- C6 (amended) — Conditional field omission: `toJSON` equals `toObject`;
the serialized object carries the `params` key exactly when a params
mapping is present, and the `table` key exactly when a *non-empty* table
name is present (the source tests JS truthiness, and the empty string is
falsy); `query()` serializes with neither key, and `query('t')`
serializes with table `'t'`. -/
theorem serialize_field_omission (q : Query τ ω ε α) (h : Heap α) :
    q.toJSON h = q.toObject h ∧
    ((q.toObject h).params.isSome ↔ (q.paramsGet h).isSome) ∧
    ((q.toObject h).table.isSome ↔ ∃ t, q.tableName = some t ∧ t ≠ "") ∧
    ((query none : Query τ ω ε α).toObject []).params = none ∧
    ((query none : Query τ ω ε α).toObject []).table = none ∧
    ((query (some "t") : Query τ ω ε α).toObject []).table = some "t" := by
  refine ⟨rfl, Iff.rfl, ?_, rfl, rfl, ?_⟩
  · show (truthyString q._table).isSome ↔ ∃ t, q._table = some t ∧ t ≠ ""
    cases ht : q._table with
    | none => simp [truthyString]
    | some t =>
      by_cases he : t = "" <;> simp [truthyString, he]
  · show truthyString (some "t") = some "t"
    simp [truthyString]

/-- C6 counterexample: `query('')` holds the table name `''`, yet its
serialized form omits the `table` key (the empty string is JS-falsy), so
"the key `table` is present iff a table name is present" fails as
stated. -/
theorem serialize_field_omission_cex :
    (query (some "") : Query Unit Unit Unit Nat).tableName = some "" ∧
    ((query (some "") : Query Unit Unit Unit Nat).toObject []).table
      = none := by
  constructor
  · rfl
  · show truthyString (some "") = none
    simp [truthyString]

/-- C5 — Param merge semantics: the setter merges the given mapping into
the existing one — every key of the argument overwrites, unmentioned keys
are preserved — mutating only the `_params` field of the instance (verbs
and table name untouched; in JS the very same instance is returned);
the getter returns the current mapping unmodified.  Concretely,
`query().params({a:1}).params({b:2}).params()` is `{a:1, b:2}` and
`query().params({a:1}).params({a:2}).params()` is `{a:2}`. -/
theorem params_merge (q : Query τ ω ε α) (h : Heap α)
    (values : ParamsObj α) :
    (q.paramsSet h values).2._verbs = q._verbs ∧
    (q.paramsSet h values).2._table = q._table ∧
    (∀ k : String,
      objGet? (((q.paramsSet h values).2.paramsGet
          (q.paramsSet h values).1).getD []) k
        = match objGet? values k with
          | some x => some x
          | none => objGet? ((q.paramsGet h).getD []) k) ∧
    ex5a2.2.paramsGet ex5a2.1 = some [("a", 1), ("b", 2)] ∧
    ex5b2.2.paramsGet ex5b2.1 = some [("a", 2)] := by
  refine ⟨rfl, rfl, ?_, by decide, by decide⟩
  intro k
  have hd : (q.paramsSet h values).2.paramsGet (q.paramsSet h values).1
      = some (spreadMerge ((deref h q._params).getD []) values) := by
    show deref (h ++ [spreadMerge ((deref h q._params).getD []) values])
        (some h.length) = _
    exact deref_append_self h _
  rw [hd]
  exact objGet?_spreadMerge ((deref h q._params).getD []) values k

/-- `append` leaves the params reference unchanged. -/
theorem params_append (q : Query τ ω ε α) (v : Verb τ ω ε) :
    (append q v)._params = q._params := rfl

/-- `append` leaves the table name unchanged. -/
theorem table_append (q : Query τ ω ε α) (v : Verb τ ω ε) :
    (append q v)._table = q._table := rfl

/-- `append` concatenates the new verb. -/
theorem verbs_append (q : Query τ ω ε α) (v : Verb τ ω ε) :
    (append q v)._verbs = q._verbs ++ [v] := rfl

/-- Input-table resolution only looks at the table name, which `append`
preserves. -/
theorem resolve_append (q : Query τ ω ε α) (v : Verb τ ω ε) (arg : Option τ)
    (cat : Catalog τ ε) : resolve (append q v) arg cat = resolve q arg cat := by
  cases arg <;> rfl

/-- `evaluate` unfolded: resolve the input, then fold the verbs. -/
theorem evaluate_eq (q : Query τ ω ε α) (tp : τ → Option (ParamsObj α) → τ)
    (h : Heap α) (arg : Option τ) (cat : Catalog τ ε) :
    q.evaluate tp h arg cat =
      match resolve q arg cat with
      | Except.ok t0 => evalVerbs tp cat (deref h q._params) q._verbs t0
      | Except.error e => Except.error e := rfl

/-- C3 — Evaluation order: evaluating a query extended by verb `A` and
then verb `B` first evaluates the original query's pipeline, then applies
`A`'s evaluate, then `B`'s; before each verb the running table is
annotated (via the `Table.params` capability `tp`) with this query's
current parameter mapping, and each verb's output feeds the next (errors
short-circuit). -/
theorem evaluate_order (q : Query τ ω ε α) (A B : Verb τ ω ε)
    (tp : τ → Option (ParamsObj α) → τ) (h : Heap α) (arg : Option τ)
    (cat : Catalog τ ε) :
    (append (append q A) B).evaluate tp h arg cat =
      match q.evaluate tp h arg cat with
      | Except.ok t1 =>
        match A.evaluate (tp t1 (deref h q._params)) cat with
        | Except.ok t2 => B.evaluate (tp t2 (deref h q._params)) cat
        | Except.error e => Except.error e
      | Except.error e => Except.error e := by
  rw [evaluate_eq, evaluate_eq, resolve_append, resolve_append,
    params_append, params_append, verbs_append, verbs_append]
  cases resolve q arg cat with
  | error e => rfl
  | ok t0 =>
    show evalVerbs tp cat (deref h q._params) (q._verbs ++ [A] ++ [B]) t0 =
      match evalVerbs tp cat (deref h q._params) q._verbs t0 with
      | Except.ok t1 =>
        match A.evaluate (tp t1 (deref h q._params)) cat with
        | Except.ok t2 => B.evaluate (tp t2 (deref h q._params)) cat
        | Except.error e => Except.error e
      | Except.error e => Except.error e
    rw [evalVerbs_append, evalVerbs_append]
    cases evalVerbs tp cat (deref h q._params) q._verbs t0 with
    | error e => rfl
    | ok t1 =>
      simp only [evalVerbs]
      cases A.evaluate (tp t1 (deref h q._params)) cat with
      | error e => rfl
      | ok t2 =>
        simp only [evalVerbs]
        cases B.evaluate (tp t2 (deref h q._params)) cat <;> rfl

/-- C1 — Serialization round-trip: assuming the external `Verb.from`
(`vfrom`) is a left inverse of `toObject` on this query's verbs,
`queryFrom(q.toObject())` yields a Query whose `toObject()` is
structurally equal to `q.toObject()`: same verb objects in the same
order, same params mapping, same table field. -/
theorem query_roundtrip (vfrom : ω → Verb τ ω ε) (q : Query τ ω ε α)
    (h : Heap α) (hinv : ∀ v ∈ q._verbs, vfrom v.toObject = v) :
    (queryFrom vfrom h (q.toObject h)).2.toObject
        (queryFrom vfrom h (q.toObject h)).1 = q.toObject h := by
  have hverbs : ((q._verbs.map Verb.toObject).map vfrom).map Verb.toObject
      = q._verbs.map Verb.toObject := by
    rw [List.map_map, List.map_map]
    apply List.map_congr_left
    intro v hv
    show Verb.toObject (vfrom (Verb.toObject v)) = Verb.toObject v
    rw [hinv v hv]
  unfold queryFrom Query.fromObject
  cases hp : (q.toObject h).params with
  | none =>
    simp only [Query.toObject, serialize, QObj.mk.injEq]
    refine ⟨trivial, hverbs, ?_, truthyString_idem q._table⟩
    have hp' : deref h q._params = none := hp
    rw [hp']
    rfl
  | some p =>
    simp only [Query.toObject, serialize, QObj.mk.injEq]
    refine ⟨trivial, hverbs, ?_, truthyString_idem q._table⟩
    have hp' : deref h q._params = some p := hp
    rw [hp', deref_append_self]

/-- Witness for C1: the round trip evaluated on a concrete one-verb query
with table name `t` and params `{a:1}`, with a concrete left-inverse verb
deserializer. -/
theorem query_roundtrip_witness :
    (queryFrom (fun _ : String => w1v) w1.1 (w1.2.toObject w1.1)).2.toObject
        (queryFrom (fun _ : String => w1v) w1.1 (w1.2.toObject w1.1)).1
      = w1.2.toObject w1.1 :=
  query_roundtrip (fun _ : String => w1v) w1.2 w1.1 (fun v hv => by
    have h2 : w1.2._verbs = [w1v] := rfl
    rw [h2] at hv
    have h1 : v = w1v := by simpa using hv
    rw [h1])

/-- C4 (amended) — Empty pipeline: for a Query with no verbs, `evaluate`
returns the input (or catalog-resolved) table exactly as resolved, with
no parameter annotation applied (the annotation happens only inside the
per-verb loop, which does not run); in particular
`query('t').evaluate(null, catalog)` with `catalog('t') = T` returns `T`
unchanged. -/
theorem evaluate_empty (tp : τ → Option (ParamsObj α) → τ) (h : Heap α)
    (q : Query τ ω ε α) (arg : Option τ) (cat : Catalog τ ε) (T : τ)
    (hq : q._verbs = []) (hcat : cat (some "t") = Except.ok T) :
    q.evaluate tp h arg cat = resolve q arg cat ∧
    (query (some "t") : Query τ ω ε α).evaluate tp h none cat
      = Except.ok T := by
  constructor
  · rw [evaluate_eq, hq]
    cases resolve q arg cat <;> rfl
  · rw [evaluate_eq]
    have h1 : resolve (query (some "t") : Query τ ω ε α) none cat
        = Except.ok T := hcat
    rw [h1]
    rfl

/-- C4 counterexample: a verb-free query carrying params `{a:1}` and
table name `t`; `evaluate` returns the resolved table `⟨5, none⟩` as is,
whereas the parameter-annotated resolved table differs — so "returns the
parameter-annotated table" is false as stated. -/
theorem evaluate_empty_cex :
    cex4.2.evaluate mparams cex4.1 none cex4cat = Except.ok ⟨5, none⟩ ∧
    mparams ⟨5, none⟩ (deref cex4.1 cex4.2._params) ≠ ⟨5, none⟩ := by
  constructor
  · rfl
  · decide

/-- Witness for C4: the amended statement at a concrete verb-free query
and a concrete catalog mapping `t` to `⟨7, none⟩`. -/
theorem evaluate_empty_witness :
    (query none : Query MTable Unit Unit Nat).evaluate mparams []
        (some ⟨3, none⟩) w4cat
      = resolve (query none : Query MTable Unit Unit Nat)
          (some ⟨3, none⟩) w4cat ∧
    (query (some "t") : Query MTable Unit Unit Nat).evaluate mparams []
        none w4cat
      = Except.ok ⟨7, none⟩ :=
  evaluate_empty mparams [] (query none) (some ⟨3, none⟩) w4cat ⟨7, none⟩
    rfl rfl

/-- C7 — Catalog resolution condition: with no table argument, resolution
invokes the catalog on this query's table name and any error it raises is
returned from `evaluate` unchanged; with a table supplied, resolution
returns that table for every catalog (the catalog is not consulted to
resolve the input) and `evaluate` proceeds directly to the verb fold on
the supplied table. -/
theorem evaluate_catalog (tp : τ → Option (ParamsObj α) → τ) (h : Heap α)
    (q : Query τ ω ε α) (t : τ) (cat cat' : Catalog τ ε) (e : ε)
    (hcat : cat q._table = Except.error e) :
    q.evaluate tp h none cat = Except.error e ∧
    resolve q none cat' = cat' q._table ∧
    resolve q (some t) cat' = Except.ok t ∧
    q.evaluate tp h (some t) cat'
      = evalVerbs tp cat' (deref h q._params) q._verbs t := by
  refine ⟨?_, rfl, rfl, rfl⟩
  rw [evaluate_eq]
  have h1 : resolve q none cat = Except.error e := hcat
  rw [h1]

/-- Witness for C7: a concrete query named `x` against the
always-failing catalog. -/
theorem evaluate_catalog_witness :
    (query (some "x") : Query MTable Unit Unit Nat).evaluate mparams []
        none w7cat = Except.error () ∧
    resolve (query (some "x") : Query MTable Unit Unit Nat) none w7cat
      = w7cat (query (some "x") : Query MTable Unit Unit Nat)._table ∧
    resolve (query (some "x") : Query MTable Unit Unit Nat)
        (some ⟨3, none⟩) w7cat = Except.ok ⟨3, none⟩ ∧
    (query (some "x") : Query MTable Unit Unit Nat).evaluate mparams []
        (some ⟨3, none⟩) w7cat
      = evalVerbs mparams w7cat
          (deref [] (query (some "x") : Query MTable Unit Unit Nat)._params)
          (query (some "x") : Query MTable Unit Unit Nat)._verbs ⟨3, none⟩ :=
  evaluate_catalog mparams [] (query (some "x")) ⟨3, none⟩ w7cat w7cat () rfl

/-- C9 (amended) — Empty-mapping merge on a query that already carries a
params mapping is observably a no-op: the resulting instance has the same
observable params, the same serialized form, and unchanged verbs and
table name.  (When no mapping is present, the call instead creates an
empty one — see the counterexample.) -/
theorem params_empty_noop (q : Query τ ω ε α) (h : Heap α)
    (hps : (q.paramsGet h).isSome = true) :
    (q.paramsSet h []).2.paramsGet (q.paramsSet h []).1 = q.paramsGet h ∧
    (q.paramsSet h []).2.toObject (q.paramsSet h []).1 = q.toObject h ∧
    (q.paramsSet h []).2._verbs = q._verbs ∧
    (q.paramsSet h []).2._table = q._table := by
  obtain ⟨p, hp⟩ := Option.isSome_iff_exists.mp hps
  have hd : deref h q._params = some p := hp
  have hmerged : spreadMerge ((deref h q._params).getD []) [] = p := by
    rw [hd]
    exact spreadMerge_nil p
  have hpg : (q.paramsSet h []).2.paramsGet (q.paramsSet h []).1
      = some p := by
    show deref (h ++ [spreadMerge ((deref h q._params).getD []) []])
        (some h.length) = some p
    rw [hmerged]
    exact deref_append_self h p
  refine ⟨?_, ?_, rfl, rfl⟩
  · rw [hpg, hp]
  · simp only [Query.toObject, serialize, QObj.mk.injEq]
    refine ⟨trivial, rfl, ?_, rfl⟩
    show deref (h ++ [spreadMerge ((deref h q._params).getD []) []])
        (some h.length) = deref h q._params
    rw [hmerged, hd]
    exact deref_append_self h p

/-- C9 counterexample: on a fresh `query()` with no params mapping,
calling `params({})` changes the serialized form — an (empty) `params`
object appears, because the freshly spread `{}` is truthy while the prior
`null` store was not. -/
theorem params_empty_noop_cex :
    ((query none : Query Unit Unit Unit Nat).paramsSet [] []).2.toObject
        ((query none : Query Unit Unit Unit Nat).paramsSet [] []).1
      ≠ (query none : Query Unit Unit Unit Nat).toObject [] := by
  decide

/-- Witness for C9: the amended statement at the concrete query
`query().params({a:1})`. -/
theorem params_empty_noop_witness :
    (w9.2.paramsSet w9.1 []).2.paramsGet (w9.2.paramsSet w9.1 []).1
      = w9.2.paramsGet w9.1 ∧
    (w9.2.paramsSet w9.1 []).2.toObject (w9.2.paramsSet w9.1 []).1
      = w9.2.toObject w9.1 ∧
    (w9.2.paramsSet w9.1 []).2._verbs = w9.2._verbs ∧
    (w9.2.paramsSet w9.1 []).2._table = w9.2._table :=
  params_empty_noop w9.2 w9.1 (by decide)

/-- C10 — Param-update isolation: the setter allocates a freshly built
merged object (the heap is extended, the instance repointed to the new
cell; no cell is overwritten), so after building `q2 = append q v` — which
shares `q`'s params reference — a `q.params(m)` call with a non-empty `m`
leaves `q2`'s observable params and serialized form unchanged, and a
`q2.params(m)` call likewise leaves `q`'s unchanged.  The hypothesis
restricts to heaps in which `q`'s reference is live, as produced by the
allocator. -/
theorem params_isolation (q : Query τ ω ε α) (v : Verb τ ω ε) (h : Heap α)
    (m : ParamsObj α) (hm : m ≠ [])
    (hwf : ∀ a, q._params = some a → a < h.length) :
    (q.paramsSet h m).1
      = h ++ [spreadMerge ((deref h q._params).getD []) m] ∧
    (q.paramsSet h m).2._params = some h.length ∧
    (append q v).paramsGet (q.paramsSet h m).1
      = (append q v).paramsGet h ∧
    (append q v).toObject (q.paramsSet h m).1
      = (append q v).toObject h ∧
    q.paramsGet ((append q v).paramsSet h m).1 = q.paramsGet h ∧
    q.toObject ((append q v).paramsSet h m).1 = q.toObject h := by
  have hstable : ∀ x : ParamsObj α,
      deref (h ++ [x]) q._params = deref h q._params := by
    intro x
    cases hq : q._params with
    | none => rfl
    | some a => exact deref_append_lt h x a (hwf a hq)
  refine ⟨rfl, rfl, hstable _, ?_, hstable _, ?_⟩
  · simp only [Query.toObject, serialize, QObj.mk.injEq]
    exact ⟨trivial, trivial, hstable _, trivial⟩
  · simp only [Query.toObject, serialize, QObj.mk.injEq]
    exact ⟨trivial, trivial, hstable _, trivial⟩

/-- Witness for C10: the concrete query `query('t').params({a:1})`, a
unit verb, and the non-empty update `{b:2}`. -/
theorem params_isolation_witness :
    (w10.2.paramsSet w10.1 [("b", 2)]).1
      = w10.1 ++ [spreadMerge ((deref w10.1 w10.2._params).getD [])
          [("b", 2)]] ∧
    (w10.2.paramsSet w10.1 [("b", 2)]).2._params = some w10.1.length ∧
    (append w10.2 w10v).paramsGet (w10.2.paramsSet w10.1 [("b", 2)]).1
      = (append w10.2 w10v).paramsGet w10.1 ∧
    (append w10.2 w10v).toObject (w10.2.paramsSet w10.1 [("b", 2)]).1
      = (append w10.2 w10v).toObject w10.1 ∧
    w10.2.paramsGet ((append w10.2 w10v).paramsSet w10.1 [("b", 2)]).1
      = w10.2.paramsGet w10.1 ∧
    w10.2.toObject ((append w10.2 w10v).paramsSet w10.1 [("b", 2)]).1
      = w10.2.toObject w10.1 :=
  params_isolation w10.2 w10v w10.1 [("b", 2)] (by decide)
    (fun a ha => by
      have h1 : some 0 = some a := ha
      have h2 : (0 : Nat) = a := by injection h1
      have h3 : a < 1 := by omega
      exact h3)
